import Mathlib

/-!
Shallow embedding of `src/json2csv.py` (class `JSONToCSVConverter`), the core
of the JSON-to-CSV converter, together with proofs about its behaviour.

Modelling conventions:
* Python dicts are association lists `List (String × Json)` with Python's
  insertion semantics (`dictInsert`): assigning to an existing key replaces
  the value in place, a new key is appended.
* JSON numbers are modelled as integers (`Int`); no claim involves floats.
* `json.loads` is a stdlib dependency, so the parsing pipeline is
  parameterised over `loads : String → Except String Json` (the `Except`
  error carries the decoder's message, as `str(JSONDecodeError)` does).
  A concrete executable JSON decoder `miniLoads` instantiates it for
  concrete witnesses and counterexamples.
* The `csv` module (writer with `QUOTE_MINIMAL`, `escapechar=None`,
  `lineterminator='\n'`) is modelled by `renderField` / `renderRow`,
  mirroring CPython `_csv.c`: a field is quoted when it contains the
  delimiter, the quote character, or a character of the line terminator
  (here only `'\n'`), and a row whose whole record text would be empty is
  written as a single quoted empty field.
-/

/-- JSON values as produced by `json.loads`: null, bool, number, string,
array, object (object pairs in insertion order, as Python dicts preserve). -/
inductive Json where
  | null : Json
  | bool (b : Bool) : Json
  | num (n : Int) : Json
  | str (s : String) : Json
  | arr (elems : List Json) : Json
  | obj (pairs : List (String × Json)) : Json
deriving Repr, Inhabited

/-- A record before flattening, or a flattened record: a Python dict. -/
abbrev Dict := List (String × Json)

/-- Whitespace for Python's `str.strip()` (ASCII whitespace characters). -/
def isPySpace (c : Char) : Bool :=
  c = ' ' || c = '\t' || c = '\n' || c = '\x0d' || c = '\x0b' || c = '\x0c'

/-- Strip leading and trailing whitespace from a character list. -/
def stripChars (l : List Char) : List Char :=
  ((l.dropWhile isPySpace).reverse.dropWhile isPySpace).reverse

/-- Python `str.strip()`: remove leading and trailing whitespace. -/
def pyStrip (s : String) : String :=
  String.mk (stripChars s.toList)

/-- Python dict assignment `d[k] = v`: replace in place if the key exists
(keeping its position), otherwise append at the end. -/
def dictInsert (d : Dict) (k : String) (v : Json) : Dict :=
  if d.any (fun p => p.1 = k) then
    d.map (fun p => if p.1 = k then (k, v) else p)
  else
    d ++ [(k, v)]

/-- Python `d.update(e)`: insert every pair of `e` into `d`, in order. -/
def dictUpdate (d : Dict) (e : Dict) : Dict :=
  e.foldl (fun a p => dictInsert a p.1 p.2) d

/-- Python `k in d` (key membership). -/
def dictMem (d : Dict) (k : String) : Bool :=
  d.any (fun p => p.1 = k)

/-- Python `d[k]` / `d.get(k)`: value of the first (unique) pair with key `k`. -/
def dictGet (d : Dict) (k : String) : Option Json :=
  (d.find? (fun p => p.1 = k)).map (fun p => p.2)

/-- The keys of a dict, in order. -/
def dictKeys (d : Dict) : List String := d.map Prod.fst

mutual
/-- Python `repr` of a string: quote (single quotes, or double quotes when
the text contains a single quote but no double quote) and escape. -/
def pyReprStrChars (q : Char) : List Char → String
  | [] => ""
  | c :: cs =>
    (if c = '\\' then "\\\\"
     else if c = q then "\\" ++ String.singleton q
     else if c = '\n' then "\\n"
     else if c = '\x0d' then "\\r"
     else if c = '\t' then "\\t"
     else String.singleton c) ++ pyReprStrChars q cs
end

/-- Python `repr` of a string value. -/
def pyReprStr (s : String) : String :=
  let q : Char := if s.toList.contains '\'' && !s.toList.contains '"' then '"' else '\''
  String.singleton q ++ pyReprStrChars q s.toList ++ String.singleton q

mutual
/-- Python `repr()` on a value decoded from JSON (`None`, `True`, `1`,
`'x'`, `[1, 'x']`, `{'a': 1}`). -/
def pyRepr : Json → String
  | .null => "None"
  | .bool true => "True"
  | .bool false => "False"
  | .num n => toString n
  | .str s => pyReprStr s
  | .arr l => "[" ++ pyReprList l ++ "]"
  | .obj l => "\x7b" ++ pyReprPairs l ++ "\x7d"

/-- Comma-separated `repr`s of list elements. -/
def pyReprList : List Json → String
  | [] => ""
  | [v] => pyRepr v
  | v :: vs => pyRepr v ++ ", " ++ pyReprList vs

/-- Comma-separated `repr(k): repr(v)` renderings of dict pairs. -/
def pyReprPairs : List (String × Json) → String
  | [] => ""
  | [(k, v)] => pyReprStr k ++ ": " ++ pyRepr v
  | (k, v) :: ps => pyReprStr k ++ ": " ++ pyRepr v ++ ", " ++ pyReprPairs ps
end

/-- Python `str()` on a value decoded from JSON: like `repr`, except that a
string is returned verbatim, without quotes. -/
def pyStr : Json → String
  | .str s => s
  | v => pyRepr v

/-- The converter's configuration (constructor arguments of
`JSONToCSVConverter.__init__`, already validated by the CLI layer). -/
structure Config where
  delimiter : Char := ','
  fields : Option (List String) := none
  no_header : Bool := false
  list_handling : String := "join"
  join_string : String := "|"

/-- Key formation in `_flatten_object`: `f"{prefix}.{key}" if prefix else key`. -/
def pyNewKey (pre key : String) : String :=
  if pre = "" then key else pre ++ "." ++ key

/-- Pair a list with 0-based indices, Python `enumerate`. -/
def pyEnumerate (l : List Json) : List (Nat × Json) :=
  (List.range l.length).zip l

mutual
/-- `JSONToCSVConverter._flatten_object`: iterate over the pairs of `obj`,
threading the dict `acc` being built (Python's local `flattened`). -/
def flatten_object (cfg : Config) : Dict → String → Dict → Dict
  | [], _, acc => acc
  | (k, v) :: rest, pre, acc =>
    flatten_object cfg rest pre (flattenPair cfg pre k v acc)

/-- One iteration of the loop body of `_flatten_object` for the pair
`(k, v)` under prefix `pre`, updating the accumulated dict. -/
def flattenPair (cfg : Config) (pre k : String) : Json → Dict → Dict
  | .obj o, acc =>
    dictUpdate acc (flatten_object cfg o (pyNewKey pre k) [])
  | .arr l, acc =>
    if cfg.list_handling = "join" then
      dictInsert acc (pyNewKey pre k)
        (.str (String.intercalate cfg.join_string (l.map pyStr)))
    else if cfg.list_handling = "index" then
      (pyEnumerate l).foldl
        (fun a p => dictInsert a (pyNewKey pre k ++ "." ++ toString p.1) p.2) acc
    else
      dictInsert acc (pyNewKey pre k) (.arr l)
  | v, acc => dictInsert acc (pyNewKey pre k) v
end

/-- `JSONToCSVConverter._json_to_records`: flatten dict items, wrap any
other item as `{'value': item}` (without flattening it). -/
def json_to_records (cfg : Config) (json_data : List Json) : List Dict :=
  json_data.map (fun item =>
    match item with
    | .obj o => flatten_object cfg o "" []
    | _ => [("value", item)])

/-! ### A concrete JSON decoder standing in for `json.loads`

The pipeline below is parameterised over the decoder; `miniLoads` is an
executable recursive-descent decoder for the JSON grammar (integers only,
no floats — no claim involves floating point), used to instantiate
witnesses and counterexamples on concrete inputs. Error strings stand for
`str(json.JSONDecodeError)`. -/

/-- JSON insignificant whitespace. -/
def isJsonWs (c : Char) : Bool :=
  c = ' ' || c = '\t' || c = '\n' || c = '\x0d'

/-- Skip insignificant whitespace. -/
def skipWs : List Char → List Char
  | [] => []
  | c :: cs => if isJsonWs c then skipWs cs else c :: cs

/-- Value of a hexadecimal digit. -/
def hexVal (c : Char) : Option Nat :=
  if '0' ≤ c ∧ c ≤ '9' then some (c.toNat - '0'.toNat)
  else if 'a' ≤ c ∧ c ≤ 'f' then some (c.toNat - 'a'.toNat + 10)
  else if 'A' ≤ c ∧ c ≤ 'F' then some (c.toNat - 'A'.toNat + 10)
  else none

/-- Decode the body of a JSON string literal (after the opening quote),
returning the decoded text and the input after the closing quote. -/
def parseStrBody (fuel : Nat) (cs : List Char) : Except String (String × List Char) :=
  match fuel, cs with
  | 0, _ => .error "Unterminated string"
  | _, [] => .error "Unterminated string starting at"
  | fuel + 1, c :: cs =>
    if c = '"' then .ok ("", cs)
    else if c = '\\' then
      match cs with
      | [] => .error "Unterminated string starting at"
      | e :: cs =>
        let dec : Except String (Char × List Char) :=
          if e = '"' then .ok ('"', cs)
          else if e = '\\' then .ok ('\\', cs)
          else if e = '/' then .ok ('/', cs)
          else if e = 'n' then .ok ('\n', cs)
          else if e = 't' then .ok ('\t', cs)
          else if e = 'r' then .ok ('\x0d', cs)
          else if e = 'b' then .ok ('\x08', cs)
          else if e = 'f' then .ok ('\x0c', cs)
          else if e = 'u' then
            match cs with
            | h1 :: h2 :: h3 :: h4 :: cs =>
              match hexVal h1, hexVal h2, hexVal h3, hexVal h4 with
              | some a, some b, some c, some d =>
                .ok (Char.ofNat (((a * 16 + b) * 16 + c) * 16 + d), cs)
              | _, _, _, _ => .error "Invalid \\uXXXX escape"
            | _ => .error "Invalid \\uXXXX escape"
          else .error "Invalid \\escape"
        match dec with
        | .error msg => .error msg
        | .ok (d, rest) =>
          match parseStrBody fuel rest with
          | .error msg => .error msg
          | .ok (s, rest') => .ok (String.singleton d ++ s, rest')
    else
      match parseStrBody fuel cs with
      | .error msg => .error msg
      | .ok (s, rest) => .ok (String.singleton c ++ s, rest)

/-- Digits folded most-significant-first starting from `acc`. -/
def digitsAcc (acc : Nat) : List Char → (Nat × List Char)
  | c :: cs => if c.isDigit then digitsAcc (acc * 10 + (c.toNat - '0'.toNat)) cs else (acc, c :: cs)
  | [] => (acc, [])

mutual
/-- Decode one JSON value from the front of the input. -/
def parseVal (fuel : Nat) (cs : List Char) : Except String (Json × List Char) :=
  match fuel with
  | 0 => .error "Too deeply nested"
  | fuel + 1 =>
    match cs with
    | [] => .error "Expecting value"
    | c :: rest =>
      if c = 'n' then
        if ['u', 'l', 'l'].isPrefixOf rest then .ok (.null, rest.drop 3)
        else .error "Expecting value"
      else if c = 't' then
        if ['r', 'u', 'e'].isPrefixOf rest then .ok (.bool true, rest.drop 3)
        else .error "Expecting value"
      else if c = 'f' then
        if ['a', 'l', 's', 'e'].isPrefixOf rest then .ok (.bool false, rest.drop 4)
        else .error "Expecting value"
      else if c = '"' then
        match parseStrBody (rest.length + 1) rest with
        | .error msg => .error msg
        | .ok (s, rest') => .ok (.str s, rest')
      else if c = '[' then
        match skipWs rest with
        | ']' :: rest' => .ok (.arr [], rest')
        | rest' => parseArrItems fuel rest' []
      else if c = '\x7b' then
        match skipWs rest with
        | '\x7d' :: rest' => .ok (.obj [], rest')
        | rest' => parseObjItems fuel rest' []
      else if c = '-' then
        match rest with
        | d :: _ =>
          if d.isDigit then
            let (n, rest') := digitsAcc 0 rest
            match rest' with
            | e :: _ =>
              if e = '.' ∨ e = 'e' ∨ e = 'E' then .error "floats unsupported"
              else .ok (.num (-(n : Int)), rest')
            | [] => .ok (.num (-(n : Int)), [])
          else .error "Expecting value"
        | [] => .error "Expecting value"
      else if c.isDigit then
        let (n, rest') := digitsAcc (c.toNat - '0'.toNat) rest
        match rest' with
        | e :: _ =>
          if e = '.' ∨ e = 'e' ∨ e = 'E' then .error "floats unsupported"
          else .ok (.num (n : Int), rest')
        | [] => .ok (.num (n : Int), [])
      else .error "Expecting value"

/-- Decode the elements of a non-empty JSON array, accumulating in `acc`;
the input starts at an element. -/
def parseArrItems (fuel : Nat) (cs : List Char) (acc : List Json) :
    Except String (Json × List Char) :=
  match fuel with
  | 0 => .error "Too deeply nested"
  | fuel + 1 =>
    match parseVal fuel (skipWs cs) with
    | .error msg => .error msg
    | .ok (v, rest) =>
      match skipWs rest with
      | ',' :: rest' => parseArrItems fuel rest' (acc ++ [v])
      | ']' :: rest' => .ok (.arr (acc ++ [v]), rest')
      | _ => .error "Expecting comma delimiter"

/-- Decode the members of a non-empty JSON object, accumulating in `acc`
with Python-dict duplicate-key semantics; the input starts at a key. -/
def parseObjItems (fuel : Nat) (cs : List Char) (acc : Dict) :
    Except String (Json × List Char) :=
  match fuel with
  | 0 => .error "Too deeply nested"
  | fuel + 1 =>
    match skipWs cs with
    | '"' :: rest =>
      match parseStrBody (rest.length + 1) rest with
      | .error msg => .error msg
      | .ok (k, rest') =>
        match skipWs rest' with
        | ':' :: rest'' =>
          match parseVal fuel (skipWs rest'') with
          | .error msg => .error msg
          | .ok (v, rest3) =>
            match skipWs rest3 with
            | ',' :: rest4 => parseObjItems fuel rest4 (dictInsert acc k v)
            | '\x7d' :: rest4 => .ok (.obj (dictInsert acc k v), rest4)
            | _ => .error "Expecting comma delimiter"
        | _ => .error "Expecting colon delimiter"
    | _ => .error "Expecting property name enclosed in double quotes"
end

/-- The stand-in for `json.loads`: decode one JSON document, requiring the
whole input to be consumed. -/
def miniLoads (s : String) : Except String Json :=
  match parseVal (s.toList.length + 1) (skipWs s.toList) with
  | .error msg => .error msg
  | .ok (v, rest) =>
    if skipWs rest = [] then .ok v else .error "Extra data"

/-! ### Projector, writer, parser pipeline -/

/-- Body of the loop of `_filter_fields` for one record: build a fresh dict
holding each requested field in order, with `None` for absent fields. -/
def projectRec (fields : List String) (record : Dict) : Dict :=
  fields.foldl (fun acc field =>
    if dictMem record field then
      dictInsert acc field ((dictGet record field).getD .null)
    else
      dictInsert acc field .null) []

/-- `JSONToCSVConverter._filter_fields`. -/
def filter_fields (records : List Dict) (fields : List String) : List Dict :=
  records.map (projectRec fields)

/-- Characters that force quoting in CPython's csv writer with
`QUOTE_MINIMAL`, `escapechar=None`, `lineterminator='\n'`: the delimiter,
the quote character, and the characters of the line terminator. -/
def csvSpecial (delim c : Char) : Bool :=
  c = delim || c = '"' || c = '\n'

/-- One pass over a field's characters, as `_csv.c` `join_append_data`:
produce the quote-doubled text and whether any character forces quoting. -/
def csvScan (delim : Char) : List Char → String × Bool
  | [] => ("", false)
  | c :: cs =>
    let r := csvScan delim cs
    ((if c = '"' then "\"\"" else String.singleton c) ++ r.1,
     csvSpecial delim c || r.2)

/-- Render one CSV field under `QUOTE_MINIMAL`: quoted with doubled quotes
when some character forces quoting, verbatim otherwise. -/
def renderField (delim : Char) (s : String) : String :=
  let r := csvScan delim s.toList
  if r.2 then "\"" ++ r.1 ++ "\"" else s

/-- Join rendered fields with the delimiter character. -/
def joinCells (d : Char) : List String → String
  | [] => ""
  | [c] => c
  | c :: cs => c ++ String.singleton d ++ joinCells d cs

/-- Render one CSV row: fields joined by the delimiter plus the `'\n'`
terminator; a non-empty row whose record text is empty is written as a
single quoted empty field (`""`), as CPython's writer does. -/
def renderRow (delim : Char) (cells : List String) : String :=
  let recText := joinCells delim (cells.map (renderField delim))
  if !cells.isEmpty && recText = "" then "\"\"\n" else recText ++ "\n"

/-- How the csv writer renders one cell value: `None` becomes the empty
cell, strings are verbatim, anything else is `str()`-converted. -/
def cellStr : Json → String
  | .null => ""
  | v => pyStr v

/-- Executable lexicographic strict comparison of character lists by code
point, the order Python string comparison uses. -/
def charListLtb : List Char → List Char → Bool
  | [], [] => false
  | [], _ :: _ => true
  | _ :: _, [] => false
  | a :: as, b :: bs => if a = b then charListLtb as bs else a < b

/-- Executable `a ≤ b` on strings (code-point lexicographic). -/
def strLeb (a b : String) : Bool :=
  !charListLtb b.toList a.toList

/-- Insert into a sorted list, keeping ascending order. -/
def insertLe (x : String) : List String → List String
  | [] => [x]
  | y :: ys => if strLeb x y then x :: y :: ys else y :: insertLe x ys

/-- Ascending insertion sort on strings, Python `sorted`. -/
def pySorted : List String → List String
  | [] => []
  | x :: xs => insertLe x (pySorted xs)

/-- The column list computed in `_write_csv`: the union of the keys of all
records, sorted (Python `sorted` on strings: lexicographic by code point). -/
def csvFieldnames (records : List Dict) : List String :=
  pySorted ((records.map dictKeys).flatten.dedup)

/-- `JSONToCSVConverter._write_csv`, producing the text written to the
output stream. A record missing a column yields an empty cell
(`DictWriter` `restval=None`). -/
def write_csv (cfg : Config) (records : List Dict) : String :=
  if records.isEmpty then ""
  else
    let fieldnames := csvFieldnames records
    let headerText :=
      if cfg.no_header then "" else renderRow cfg.delimiter fieldnames
    headerText ++ String.join (records.map (fun r =>
      renderRow cfg.delimiter (fieldnames.map (fun k =>
        match dictGet r k with
        | none => ""
        | some v => cellStr v))))

/-- The loop of `_parse_ndjson` over the remaining lines, `n` being the
1-based number of the first of them (`enumerate(lines, 1)`). -/
def ndjsonGo (loads : String → Except String Json) (n : Nat) :
    List String → Except String (List Json)
  | [] => .ok []
  | l :: ls =>
    let line := pyStrip l
    if line = "" then ndjsonGo loads (n + 1) ls
    else
      match loads line with
      | .ok (.obj o) =>
        match ndjsonGo loads (n + 1) ls with
        | .ok rest => .ok (.obj o :: rest)
        | .error e => .error e
      | .ok _ => .error ("Line " ++ toString n ++ ": Expected JSON object")
      | .error e => .error ("Line " ++ toString n ++ ": Invalid JSON - " ++ e)

/-- Split a character list at every `'\n'`, Python `str.split('\n')`. -/
def splitNlGo : List Char → List (List Char)
  | [] => [[]]
  | c :: cs =>
    if c = '\n' then [] :: splitNlGo cs
    else
      match splitNlGo cs with
      | l :: ls => (c :: l) :: ls
      | [] => [[c]]

/-- Python `s.split('\n')`. -/
def pySplitNl (s : String) : List String :=
  (splitNlGo s.toList).map String.mk

/-- `JSONToCSVConverter._parse_ndjson`: split the (already stripped)
content on newlines, skip blank lines, require every other line to decode
to an object. The `ValueError` raised for a non-object line is not caught
by the `except json.JSONDecodeError` clause (it is a superclass), so both
errors abort the conversion. -/
def parse_ndjson (loads : String → Except String Json) (content : String) :
    Except String (List Json) :=
  ndjsonGo loads 1 (pySplitNl (pyStrip content))

/-- `JSONToCSVConverter._parse_json`: strip the input; empty means zero
records; otherwise decode the whole document, falling back to NDJSON only
on a decode failure (`json.JSONDecodeError`). The `ValueError("JSON must
be an object or array")` raised for a scalar document is not a
`JSONDecodeError`, so it propagates without attempting the fallback. -/
def parse_json (loads : String → Except String Json) (input : String) :
    Except String (List Json) :=
  let content := pyStrip input
  if content = "" then .ok []
  else
    match loads content with
    | .ok (.arr l) => .ok l
    | .ok (.obj o) => .ok [.obj o]
    | .ok _ => .error "JSON must be an object or array"
    | .error _ => parse_ndjson loads content

/-- Python truthiness of the `fields` option in `if self.fields:`:
`None` and the empty list are falsy. -/
def fieldsTruthy : Option (List String) → Bool
  | none => false
  | some fs => !fs.isEmpty

/-- `JSONToCSVConverter.convert`: the whole pipeline, from input text to
the CSV text written to the output stream (or the error message raised). -/
def convert (loads : String → Except String Json) (cfg : Config)
    (input : String) : Except String String :=
  match parse_json loads input with
  | .error e => .error e
  | .ok json_data =>
    let records := json_to_records cfg json_data
    let records :=
      if fieldsTruthy cfg.fields then
        filter_fields records (cfg.fields.getD [])
      else records
    .ok (write_csv cfg records)

/-! ### Basic facts about the embedded definitions -/

/-- Whether a value is a JSON object (Python `isinstance(v, dict)`). -/
def Json.isObj : Json → Bool
  | .obj _ => true
  | _ => false

/-- Whether a value is a JSON array (Python `isinstance(v, list)`). -/
def Json.isArr : Json → Bool
  | .arr _ => true
  | _ => false

theorem charListLtb_iff : ∀ u v : List Char,
    charListLtb u v = true ↔ List.Lex (fun a b => a < b) u v
  | [], [] => by
    constructor
    · intro h
      simp [charListLtb] at h
    · intro h
      cases h
  | [], _ :: _ => by
    constructor
    · intro _
      exact List.Lex.nil
    · intro _
      rfl
  | a :: as, [] => by
    constructor
    · intro h
      simp [charListLtb] at h
    · intro h
      cases h
  | a :: as, b :: bs => by
    show (if a = b then charListLtb as bs else decide (a < b)) = true ↔ _
    by_cases hab : a = b
    · subst hab
      rw [if_pos rfl, charListLtb_iff as bs]
      exact List.Lex.cons_iff.symm
    · rw [if_neg hab, decide_eq_true_eq]
      constructor
      · intro h
        exact List.Lex.rel h
      · intro h
        cases h with
        | cons h => exact absurd rfl hab
        | rel h => exact h

theorem strLeb_iff (a b : String) : strLeb a b = true ↔ a ≤ b := by
  rw [String.le_iff_toList_le, ← not_lt]
  show (!charListLtb b.toList a.toList) = true ↔ _
  rw [Bool.not_eq_true', ← Bool.not_eq_true, not_iff_not]
  exact charListLtb_iff b.toList a.toList

theorem insertLe_eq (x : String) :
    ∀ l, insertLe x l = List.orderedInsert (fun a b => a ≤ b) x l
  | [] => rfl
  | y :: ys => by
    simp only [insertLe, List.orderedInsert, insertLe_eq x ys]
    by_cases h : x ≤ y
    · rw [if_pos (by simpa using (strLeb_iff x y).mpr h), if_pos h]
    · rw [if_neg (by simpa using fun hh => h ((strLeb_iff x y).mp hh)), if_neg h]

theorem pySorted_eq :
    ∀ l, pySorted l = List.insertionSort (fun a b => a ≤ b) l
  | [] => rfl
  | x :: xs => by
    simp only [pySorted, List.insertionSort, pySorted_eq xs, insertLe_eq]

theorem pySorted_sorted (l : List String) : List.Sorted (· ≤ ·) (pySorted l) := by
  rw [pySorted_eq]
  exact List.sorted_insertionSort _ l

theorem pySorted_perm (l : List String) : List.Perm (pySorted l) l := by
  rw [pySorted_eq]
  exact List.perm_insertionSort _ l

theorem pySorted_mem (k : String) (l : List String) : k ∈ pySorted l ↔ k ∈ l :=
  (pySorted_perm l).mem_iff

theorem pySorted_eq_of_mem_iff {l l' : List String} (hn : l.Nodup) (hn' : l'.Nodup)
    (h : ∀ k, k ∈ l ↔ k ∈ l') : pySorted l = pySorted l' := by
  have hp : List.Perm (pySorted l) (pySorted l') :=
    ((pySorted_perm l).trans ((List.perm_ext_iff_of_nodup hn hn').mpr h)).trans
      (pySorted_perm l').symm
  exact List.eq_of_perm_of_sorted hp (pySorted_sorted l) (pySorted_sorted l')

/-! ### Dict lemmas -/

theorem dictMem_iff (d : Dict) (k : String) :
    dictMem d k = true ↔ k ∈ dictKeys d := by
  simp [dictMem, dictKeys, List.any_eq_true, List.mem_map]

theorem dictKeys_dictInsert (d : Dict) (k : String) (v : Json) :
    dictKeys (dictInsert d k v) =
      if dictMem d k then dictKeys d else dictKeys d ++ [k] := by
  rw [dictInsert, dictMem]
  by_cases h : d.any (fun p => p.1 = k) = true
  · rw [if_pos h, if_pos h]
    simp only [dictKeys, List.map_map]
    apply List.map_congr_left
    intro p _
    by_cases hpk : p.1 = k
    · simp [Function.comp, if_pos hpk, hpk]
    · simp [Function.comp, if_neg hpk]
  · rw [if_neg h, if_neg h]
    simp [dictKeys]

theorem mem_dictKeys_dictInsert (d : Dict) (k k' : String) (v : Json) :
    k' ∈ dictKeys (dictInsert d k v) ↔ k' ∈ dictKeys d ∨ k' = k := by
  rw [dictKeys_dictInsert]
  by_cases h : dictMem d k = true
  · rw [if_pos h]
    constructor
    · exact Or.inl
    · intro hm
      cases hm with
      | inl hm => exact hm
      | inr hm => exact hm ▸ (dictMem_iff d k).mp h
  · rw [if_neg h]
    simp

theorem dictInsert_vals (P : Json → Prop) {d : Dict} {k : String} {v : Json}
    (hd : ∀ p ∈ d, P p.2) (hv : P v) : ∀ p ∈ dictInsert d k v, P p.2 := by
  intro p hp
  rw [dictInsert] at hp
  by_cases h : d.any (fun q => q.1 = k) = true
  · rw [if_pos h] at hp
    obtain ⟨q, hq, hqe⟩ := List.mem_map.mp hp
    by_cases hqk : q.1 = k
    · rw [if_pos hqk] at hqe
      rw [← hqe]
      exact hv
    · rw [if_neg hqk] at hqe
      exact hqe ▸ hd q hq
  · rw [if_neg h] at hp
    rcases List.mem_append.mp hp with hp | hp
    · exact hd p hp
    · rw [List.mem_singleton.mp hp]
      exact hv

theorem dictUpdate_vals (P : Json → Prop) {e : Dict} :
    ∀ {d : Dict}, (∀ p ∈ d, P p.2) → (∀ p ∈ e, P p.2) →
      ∀ p ∈ dictUpdate d e, P p.2 := by
  induction e with
  | nil => exact fun hd _ => hd
  | cons q e ih =>
    intro d hd he
    rw [dictUpdate, List.foldl_cons]
    exact ih (dictInsert_vals P hd (he q (List.mem_cons_self q e)))
      (fun p hp => he p (List.mem_cons_of_mem q hp))

/-! ### Fieldname lemmas -/

theorem allKeys_mem (records : List Dict) (k : String) :
    k ∈ (records.map dictKeys).flatten ↔ ∃ r ∈ records, k ∈ dictKeys r := by
  rw [List.mem_flatten]
  constructor
  · rintro ⟨l, hl, hk⟩
    obtain ⟨r, hr, rfl⟩ := List.mem_map.mp hl
    exact ⟨r, hr, hk⟩
  · rintro ⟨r, hr, hk⟩
    exact ⟨dictKeys r, List.mem_map.mpr ⟨r, hr, rfl⟩, hk⟩

theorem csvFieldnames_mem (records : List Dict) (k : String) :
    k ∈ csvFieldnames records ↔ ∃ r ∈ records, k ∈ dictKeys r := by
  rw [csvFieldnames, pySorted_mem, List.mem_dedup]
  exact allKeys_mem records k

theorem csvFieldnames_sorted (records : List Dict) :
    List.Sorted (· ≤ ·) (csvFieldnames records) :=
  pySorted_sorted _

theorem csvFieldnames_congr {rs1 rs2 : List Dict}
    (h : ∀ k, (∃ r ∈ rs1, k ∈ dictKeys r) ↔ (∃ r ∈ rs2, k ∈ dictKeys r)) :
    csvFieldnames rs1 = csvFieldnames rs2 :=
  pySorted_eq_of_mem_iff (List.nodup_dedup _) (List.nodup_dedup _)
    (fun k => by
      rw [List.mem_dedup, List.mem_dedup, allKeys_mem, allKeys_mem]
      exact h k)

theorem write_csv_header (cfg : Config) (records : List Dict)
    (h1 : records ≠ []) (h2 : cfg.no_header = false) :
    ∃ body, write_csv cfg records =
      renderRow cfg.delimiter (csvFieldnames records) ++ body := by
  obtain ⟨r, rs, rfl⟩ := List.exists_cons_of_ne_nil h1
  exact ⟨_, by rw [write_csv, h2]; rfl⟩

theorem pyStrip_eq_empty {s : String} (h : ∀ c ∈ s.toList, isPySpace c = true) :
    pyStrip s = "" := by
  rw [pyStrip, stripChars, List.dropWhile_eq_nil_iff.mpr h]
  rfl

/-! ### The claims -/

/-- Claim C7: an input that is empty or consists only of whitespace
converts successfully to an empty output — zero characters are written, no
header and no newline, whatever the decoder, configuration and field list. -/
theorem claim_C7 (loads : String → Except String Json) (cfg : Config)
    (input : String) (h : ∀ c ∈ input.toList, isPySpace c = true) :
    convert loads cfg input = .ok "" := by
  rw [convert, parse_json, pyStrip_eq_empty h]
  cases hf : fieldsTruthy cfg.fields <;>
    simp [json_to_records, filter_fields, write_csv, hf]

theorem claim_C7_witness :
    (∀ c ∈ ("  \n\t ").toList, isPySpace c = true) ∧
      convert miniLoads {} "  \n\t " = .ok "" :=
  ⟨by decide, claim_C7 miniLoads {} "  \n\t " (by decide)⟩

/-- Claim C6: with no projection, the column list `csvFieldnames` used for
the header and every row is sorted lexicographically (code-point order on
strings), contains exactly the union of the keys of all records, heads the
output when a header is emitted, and is identical for any two record lists
with the same key set — so it does not depend on record order or on key
insertion order inside the records. -/
theorem claim_C6 (cfg : Config) (rs1 rs2 : List Dict)
    (h : ∀ k, (∃ r ∈ rs1, k ∈ dictKeys r) ↔ (∃ r ∈ rs2, k ∈ dictKeys r))
    (h1 : rs1 ≠ []) (h2 : cfg.no_header = false) :
    List.Sorted (· ≤ ·) (csvFieldnames rs1)
    ∧ (∀ k, k ∈ csvFieldnames rs1 ↔ ∃ r ∈ rs1, k ∈ dictKeys r)
    ∧ csvFieldnames rs1 = csvFieldnames rs2
    ∧ ∃ body, write_csv cfg rs1 =
        renderRow cfg.delimiter (csvFieldnames rs1) ++ body :=
  ⟨csvFieldnames_sorted rs1, csvFieldnames_mem rs1,
   csvFieldnames_congr h, write_csv_header cfg rs1 h1 h2⟩

theorem claim_C6_witness :
    (∀ k, (∃ r ∈ [[("b", Json.num 2), ("a", Json.num 1)]], k ∈ dictKeys r) ↔
        (∃ r ∈ [[("a", Json.num 1)], [("b", Json.num 2)]], k ∈ dictKeys r))
    ∧ csvFieldnames [[("b", Json.num 2), ("a", Json.num 1)]] =
        csvFieldnames [[("a", Json.num 1)], [("b", Json.num 2)]] := by
  have h : ∀ k, (∃ r ∈ [[("b", Json.num 2), ("a", Json.num 1)]], k ∈ dictKeys r) ↔
      (∃ r ∈ [[("a", Json.num 1)], [("b", Json.num 2)]], k ∈ dictKeys r) := by
    intro k
    simp [dictKeys]
    constructor
    · rintro ⟨x, h | h⟩
      · exact Or.inr h.1
      · exact Or.inl h.1
    · rintro (h | h)
      · exact ⟨Json.num 1, Or.inr ⟨h, rfl⟩⟩
      · exact ⟨Json.num 2, Or.inl ⟨h, rfl⟩⟩
  exact ⟨h, (claim_C6 {} _ _ h (by simp) rfl).2.2.1⟩

theorem parse_json_scalar {loads : String → Except String Json} {input : String}
    {v : Json} (hne : pyStrip input ≠ "") (hload : loads (pyStrip input) = .ok v)
    (harr : v.isArr = false) (hobj : v.isObj = false) :
    parse_json loads input = .error "JSON must be an object or array" := by
  rw [parse_json]
  simp only [hload, if_neg hne]
  cases v
  case arr => simp [Json.isArr] at harr
  case obj => simp [Json.isObj] at hobj
  all_goals rfl

/-- Claim C5: an input whose whole (stripped) text decodes to a scalar JSON
value — neither object nor array — makes the conversion fail with exactly
"JSON must be an object or array", producing no output. The result does not
depend on how any line of the input would decode, so the NDJSON fallback is
never attempted (the `ValueError` is not a `json.JSONDecodeError`). -/
theorem claim_C5 (loads : String → Except String Json) (cfg : Config)
    (input : String) (v : Json) (hne : pyStrip input ≠ "")
    (hload : loads (pyStrip input) = .ok v)
    (harr : v.isArr = false) (hobj : v.isObj = false) :
    convert loads cfg input = .error "JSON must be an object or array" := by
  rw [convert, parse_json_scalar hne hload harr hobj]

theorem claim_C5_witness :
    pyStrip "1" ≠ "" ∧
      convert miniLoads {} "1" = .error "JSON must be an object or array" :=
  ⟨by decide, claim_C5 miniLoads {} "1" (.num 1) (by decide) rfl rfl rfl⟩

mutual
theorem flatten_object_cfg_congr (c c' : Config)
    (hl : c.list_handling = c'.list_handling) (hj : c.join_string = c'.join_string) :
    ∀ obj pre acc, flatten_object c obj pre acc = flatten_object c' obj pre acc
  | [], _, _ => rfl
  | (k, v) :: rest, pre, acc => by
    simp only [flatten_object]
    rw [flattenPair_cfg_congr c c' hl hj pre k v acc,
      flatten_object_cfg_congr c c' hl hj rest pre _]

theorem flattenPair_cfg_congr (c c' : Config)
    (hl : c.list_handling = c'.list_handling) (hj : c.join_string = c'.join_string) :
    ∀ pre k v acc, flattenPair c pre k v acc = flattenPair c' pre k v acc
  | _, _, .null, _ => rfl
  | _, _, .bool _, _ => rfl
  | _, _, .num _, _ => rfl
  | _, _, .str _, _ => rfl
  | pre, k, .obj o, acc => by
    simp only [flattenPair]
    rw [flatten_object_cfg_congr c c' hl hj o (pyNewKey pre k) []]
  | pre, k, .arr l, acc => by
    simp only [flattenPair]
    rw [hl, hj]
end

theorem json_to_records_cfg_congr (c c' : Config)
    (hl : c.list_handling = c'.list_handling) (hj : c.join_string = c'.join_string)
    (data : List Json) : json_to_records c data = json_to_records c' data := by
  rw [json_to_records, json_to_records]
  apply List.map_congr_left
  intro item _
  cases item <;> first
    | rfl
    | exact flatten_object_cfg_congr c c' hl hj _ "" []

theorem write_csv_cfg_congr (c c' : Config) (hd : c.delimiter = c'.delimiter)
    (hh : c.no_header = c'.no_header) (records : List Dict) :
    write_csv c records = write_csv c' records := by
  rw [write_csv, write_csv, hd, hh]

/-- Claim C10: configuring an empty field list is the same as configuring no
field list at all — `if self.fields:` is false for both `None` and `[]`, so
the projection step is skipped and the two conversions produce identical
results on every input. -/
theorem claim_C10 (loads : String → Except String Json) (d : Char) (nh : Bool)
    (lh js : String) (input : String) :
    convert loads ⟨d, some [], nh, lh, js⟩ input =
      convert loads ⟨d, none, nh, lh, js⟩ input := by
  rw [convert, convert]
  cases hp : parse_json loads input with
  | error e => rfl
  | ok data =>
    show Except.ok (write_csv ⟨d, some [], nh, lh, js⟩
        (json_to_records ⟨d, some [], nh, lh, js⟩ data)) =
      Except.ok (write_csv ⟨d, none, nh, lh, js⟩
        (json_to_records ⟨d, none, nh, lh, js⟩ data))
    rw [json_to_records_cfg_congr ⟨d, some [], nh, lh, js⟩ ⟨d, none, nh, lh, js⟩
        rfl rfl data,
      write_csv_cfg_congr ⟨d, some [], nh, lh, js⟩ ⟨d, none, nh, lh, js⟩ rfl rfl]

/-- Claim C2 counterexample: the top-level array element `[1, 2]` (a
non-object) is wrapped as `{'value': [1, 2]}` but is NOT flattened:
flattening that wrapper under the default join policy would turn the list
into the string "1|2", while `_json_to_records` keeps the raw list. -/
theorem claim_C2_cex :
    json_to_records {} [Json.arr [Json.num 1, Json.num 2]] =
      [[("value", Json.arr [Json.num 1, Json.num 2])]]
    ∧ flatten_object {} [("value", Json.arr [Json.num 1, Json.num 2])] "" [] =
      [("value", Json.str "1|2")]
    ∧ ([[("value", Json.arr [Json.num 1, Json.num 2])]] : List Dict) ≠
      [[("value", Json.str "1|2")]]
    ∧ convert miniLoads {} "[[1, 2]]" = .ok "value\n\"[1, 2]\"\n"
    ∧ ("value\n\"[1, 2]\"\n" : String) ≠ "value\n1|2\n" :=
  ⟨rfl, rfl, by simp, rfl, by decide⟩

/-- Claim C2 (amended): each non-object top-level element `e` becomes the
record `{"value": e}` taken as the flat record directly, without running the
Flattener on it; this coincides with the flattening of `{"value": e}`
exactly when `e` is not a list (for list elements the two differ — see the
counterexample). -/
theorem claim_C2_amended (cfg : Config) (e : Json) (hobj : e.isObj = false) :
    json_to_records cfg [e] = [[("value", e)]]
    ∧ (e.isArr = false →
        flatten_object cfg [("value", e)] "" [] = [("value", e)]) := by
  constructor
  · cases e
    case obj => simp [Json.isObj] at hobj
    all_goals rfl
  · intro harr
    cases e
    case obj => simp [Json.isObj] at hobj
    case arr => simp [Json.isArr] at harr
    all_goals rfl

theorem claim_C2_amended_witness :
    Json.isObj (Json.num 7) = false
    ∧ json_to_records {} [Json.num 7] = [[("value", Json.num 7)]]
    ∧ flatten_object {} [("value", Json.num 7)] "" [] = [("value", Json.num 7)] :=
  ⟨rfl, (claim_C2_amended {} (Json.num 7) rfl).1,
    (claim_C2_amended {} (Json.num 7) rfl).2 rfl⟩

/-- Claim C8: under the join policy a list value flattens to one string at
the unmodified (dot-prefixed) key, built by `str()`-stringifying each
element and joining with the configured join string; concretely,
`{"tags": ["x","y"]}` with the defaults yields column `tags`, value `x|y`. -/
theorem claim_C8 (cfg : Config) (hjoin : cfg.list_handling = "join")
    (pre k : String) (vs : List Json) :
    flatten_object cfg [(k, Json.arr vs)] pre [] =
      [(pyNewKey pre k,
        Json.str (String.intercalate cfg.join_string (vs.map pyStr)))]
    ∧ convert miniLoads {} "\x7b\"tags\": [\"x\",\"y\"]\x7d" = .ok "tags\nx|y\n" := by
  constructor
  · simp only [flatten_object, flattenPair, if_pos hjoin]
    rfl
  · rfl

theorem claim_C8_witness :
    ({} : Config).list_handling = "join"
    ∧ flatten_object {} [("tags", Json.arr [Json.str "x", Json.str "y"])] "" [] =
      [("tags", Json.str "x|y")] :=
  ⟨rfl, (claim_C8 {} rfl "" "tags" [Json.str "x", Json.str "y"]).1⟩

/-- Claim C3 counterexample: under the `index` policy an object element of a
list is emitted raw, so the flat record `{"xs.0": {"a": 1}}` holds an object
value — exactly the case the claim asserts cannot happen. -/
theorem claim_C3_cex :
    flatten_object {list_handling := "index"}
        [("xs", Json.arr [Json.obj [("a", Json.num 1)]])] "" [] =
      [("xs.0", Json.obj [("a", Json.num 1)])]
    ∧ Json.isObj (Json.obj [("a", Json.num 1)]) = true :=
  ⟨rfl, rfl⟩

mutual
theorem flatten_object_no_obj (cfg : Config) (hni : cfg.list_handling ≠ "index") :
    ∀ obj pre acc, (∀ p ∈ acc, p.2.isObj = false) →
      ∀ p ∈ flatten_object cfg obj pre acc, p.2.isObj = false
  | [], _, acc => fun hacc => by
    simpa only [flatten_object] using hacc
  | (k, v) :: rest, pre, acc => fun hacc => by
    simp only [flatten_object]
    exact flatten_object_no_obj cfg hni rest pre _
      (flattenPair_no_obj cfg hni pre k v acc hacc)

theorem flattenPair_no_obj (cfg : Config) (hni : cfg.list_handling ≠ "index") :
    ∀ pre k v acc, (∀ p ∈ acc, p.2.isObj = false) →
      ∀ p ∈ flattenPair cfg pre k v acc, p.2.isObj = false
  | _, _, .null, acc => fun hacc => by
    simp only [flattenPair]
    exact dictInsert_vals (fun j => j.isObj = false) hacc rfl
  | _, _, .bool b, acc => fun hacc => by
    simp only [flattenPair]
    exact dictInsert_vals (fun j => j.isObj = false) hacc rfl
  | _, _, .num n, acc => fun hacc => by
    simp only [flattenPair]
    exact dictInsert_vals (fun j => j.isObj = false) hacc rfl
  | _, _, .str s, acc => fun hacc => by
    simp only [flattenPair]
    exact dictInsert_vals (fun j => j.isObj = false) hacc rfl
  | pre, k, .obj o, acc => fun hacc => by
    simp only [flattenPair]
    exact dictUpdate_vals (fun j => j.isObj = false) hacc
      (flatten_object_no_obj cfg hni o (pyNewKey pre k) [] (by simp))
  | pre, k, .arr l, acc => fun hacc => by
    simp only [flattenPair]
    by_cases hjoin : cfg.list_handling = "join"
    · rw [if_pos hjoin]
      exact dictInsert_vals (fun j => j.isObj = false) hacc rfl
    · rw [if_neg hjoin, if_neg hni]
      exact dictInsert_vals (fun j => j.isObj = false) hacc rfl
end

/-- Claim C3 (amended): no value of a flat record produced by the Flattener
is itself an object, provided the list policy is not `index`; under `index`
(and exactly there) object elements of lists survive unflattened, as the
counterexample shows. -/
theorem claim_C3_amended (cfg : Config) (hni : cfg.list_handling ≠ "index")
    (obj : Dict) : ∀ p ∈ flatten_object cfg obj "" [], p.2.isObj = false :=
  flatten_object_no_obj cfg hni obj "" [] (by simp)

theorem claim_C3_amended_witness :
    ({} : Config).list_handling ≠ "index"
    ∧ ∀ p ∈ flatten_object {}
        [("a", Json.obj [("b", Json.num 1)]), ("xs", Json.arr [Json.num 1])] "" [],
      p.2.isObj = false :=
  ⟨by decide,
    claim_C3_amended {} (by decide)
      [("a", Json.obj [("b", Json.num 1)]), ("xs", Json.arr [Json.num 1])]⟩

theorem projectRec_mem (r : Dict) :
    ∀ (fields : List String) (acc : Dict) (k : String),
      k ∈ dictKeys (fields.foldl (fun acc field =>
          if dictMem r field then
            dictInsert acc field ((dictGet r field).getD .null)
          else
            dictInsert acc field .null) acc) ↔
        k ∈ dictKeys acc ∨ k ∈ fields
  | [], acc, k => by simp
  | f :: rest, acc, k => by
    rw [List.foldl_cons, projectRec_mem r rest _ k]
    by_cases hm : dictMem r f = true
    · rw [if_pos hm, mem_dictKeys_dictInsert, List.mem_cons]
      tauto
    · rw [if_neg hm, mem_dictKeys_dictInsert, List.mem_cons]
      tauto

theorem projectRec_keys_mem (fields : List String) (r : Dict) (k : String) :
    k ∈ dictKeys (projectRec fields r) ↔ k ∈ fields := by
  rw [projectRec, projectRec_mem r fields [] k]
  simp [dictKeys]

/-- Claim C1 counterexample: with the field list `["z","a"]` the emitted
header is the lexicographically sorted `a,z`, not the requested order
`z,a`; and the duplicated request `["a","a"]` collapses to one column
instead of repeating it — `_write_csv` re-sorts the key set and ignores
the requested order. -/
theorem claim_C1_cex :
    convert miniLoads {fields := some ["z", "a"]} "\x7b\"a\": 1, \"z\": 2\x7d" =
      .ok "a,z\n1,2\n"
    ∧ ("a,z\n1,2\n" : String) ≠ "z,a\n2,1\n"
    ∧ convert miniLoads {fields := some ["a", "a"]} "\x7b\"a\": 1, \"z\": 2\x7d" =
      .ok "a\n1\n"
    ∧ ("a\n1\n" : String) ≠ "a,a\n1,1\n" :=
  ⟨rfl, by decide, rfl, by decide⟩

/-- Claim C1 (amended): when a field list is configured, every projected
record holds exactly the requested keys (duplicates collapsed), but the
emitted column list is the lexicographically sorted deduplicated requested
field set — not the user-specified order. -/
theorem claim_C1_amended (records : List Dict) (fields : List String)
    (h : records ≠ []) :
    (∀ r' ∈ filter_fields records fields, ∀ k, k ∈ dictKeys r' ↔ k ∈ fields)
    ∧ List.Sorted (· ≤ ·) (csvFieldnames (filter_fields records fields))
    ∧ (∀ k, k ∈ csvFieldnames (filter_fields records fields) ↔ k ∈ fields) := by
  refine ⟨?_, csvFieldnames_sorted _, ?_⟩
  · intro r' hr' k
    obtain ⟨r, _, rfl⟩ := List.mem_map.mp hr'
    exact projectRec_keys_mem fields r k
  · intro k
    rw [csvFieldnames_mem]
    constructor
    · rintro ⟨r', hr', hk⟩
      obtain ⟨r, _, rfl⟩ := List.mem_map.mp hr'
      exact (projectRec_keys_mem fields r k).mp hk
    · intro hk
      obtain ⟨r, rs, rfl⟩ := List.exists_cons_of_ne_nil h
      exact ⟨projectRec fields r,
        List.mem_map.mpr ⟨r, List.mem_cons_self r rs, rfl⟩,
        (projectRec_keys_mem fields r k).mpr hk⟩

theorem claim_C1_amended_witness :
    ([[("a", Json.num 1)]] : List Dict) ≠ []
    ∧ List.Sorted (· ≤ ·)
        (csvFieldnames (filter_fields [[("a", Json.num 1)]] ["z", "a"]))
    ∧ (∀ k, k ∈ csvFieldnames (filter_fields [[("a", Json.num 1)]] ["z", "a"]) ↔
        k ∈ ["z", "a"]) :=
  ⟨by simp,
    (claim_C1_amended [[("a", Json.num 1)]] ["z", "a"] (by simp)).2.1,
    (claim_C1_amended [[("a", Json.num 1)]] ["z", "a"] (by simp)).2.2⟩

theorem dropWhile_head?_false {p : Char → Bool} :
    ∀ (l : List Char) (a : Char), (l.dropWhile p).head? = some a → p a = false
  | [], a => by
    intro h
    cases h
  | c :: cs, a => by
    intro h
    rw [List.dropWhile_cons] at h
    by_cases hc : p c = true
    · rw [if_pos hc] at h
      exact dropWhile_head?_false cs a h
    · rw [if_neg hc] at h
      rw [List.head?_cons, Option.some.injEq] at h
      rw [← h]
      simpa using hc

theorem dropWhile_eq_self_of_head? {p : Char → Bool} {l : List Char}
    (h : ∀ a, l.head? = some a → p a = false) : l.dropWhile p = l := by
  cases l with
  | nil => rfl
  | cons c cs =>
    rw [List.dropWhile_cons, if_neg (by simp [h c rfl])]

theorem getLast?_dropWhile {p : Char → Bool} :
    ∀ (l : List Char),
      l.dropWhile p = [] ∨
        (l.dropWhile p ≠ [] ∧ (l.dropWhile p).getLast? = l.getLast?)
  | [] => Or.inl rfl
  | c :: cs => by
    rw [List.dropWhile_cons]
    by_cases hc : p c = true
    · rw [if_pos hc]
      rcases getLast?_dropWhile cs with h | ⟨hne, heq⟩
      · exact Or.inl h
      · refine Or.inr ⟨hne, ?_⟩
        cases cs with
        | nil => exact absurd rfl hne
        | cons d t => rw [heq, List.getLast?_cons_cons]
    · rw [if_neg hc]
      exact Or.inr ⟨by simp, rfl⟩

theorem stripChars_of_clean {x : List Char}
    (h1 : ∀ a, x.head? = some a → isPySpace a = false)
    (h2 : ∀ a, x.getLast? = some a → isPySpace a = false) :
    stripChars x = x := by
  rw [stripChars, dropWhile_eq_self_of_head? h1,
    dropWhile_eq_self_of_head? (fun a ha => h2 a (by rwa [← List.head?_reverse])),
    List.reverse_reverse]

theorem stripChars_head {l : List Char} :
    ∀ a, (stripChars l).head? = some a → isPySpace a = false := by
  intro a ha
  rw [stripChars, List.head?_reverse] at ha
  rcases getLast?_dropWhile ((l.dropWhile isPySpace).reverse) with h | ⟨_, heq⟩
  · rw [h] at ha
    cases ha
  · rw [heq, List.getLast?_reverse] at ha
    exact dropWhile_head?_false l a ha

theorem stripChars_last {l : List Char} :
    ∀ a, (stripChars l).getLast? = some a → isPySpace a = false := by
  intro a ha
  rw [stripChars, List.getLast?_reverse] at ha
  exact dropWhile_head?_false _ a ha

theorem stripChars_idem (l : List Char) :
    stripChars (stripChars l) = stripChars l :=
  stripChars_of_clean stripChars_head stripChars_last

theorem pyStrip_idem (s : String) : pyStrip (pyStrip s) = pyStrip s :=
  congrArg String.mk (stripChars_idem s.toList)

/-- The message `_parse_ndjson` raises at a line that does not decode to an
object: the decoder's failure text after "Invalid JSON - ", or the
"Expected JSON object" complaint for a decodable non-object. -/
def lineErrMsg (loads : String → Except String Json) (n : Nat) (l : String) :
    String :=
  match loads (pyStrip l) with
  | .ok _ => "Line " ++ toString n ++ ": Expected JSON object"
  | .error e => "Line " ++ toString n ++ ": Invalid JSON - " ++ e

/-- A line `_parse_ndjson` accepts or skips: blank, or decoding to an object. -/
def goodLine (loads : String → Except String Json) (l : String) : Prop :=
  pyStrip l = "" ∨ ∃ o, loads (pyStrip l) = .ok (.obj o)

/-- A line `_parse_ndjson` rejects: non-blank and not decoding to an object. -/
def badLine (loads : String → Except String Json) (l : String) : Prop :=
  pyStrip l ≠ "" ∧ ∀ o, loads (pyStrip l) ≠ .ok (.obj o)

theorem ndjsonGo_error (loads : String → Except String Json) :
    ∀ (lines : List String) (n i : Nat) (hi : i < lines.length),
      badLine loads (lines.get ⟨i, hi⟩) →
      (∀ j (hj : j < lines.length), j < i → goodLine loads (lines.get ⟨j, hj⟩)) →
      ndjsonGo loads n lines =
        .error (lineErrMsg loads (n + i) (lines.get ⟨i, hi⟩))
  | [], _, i, hi => absurd hi (by simp)
  | l :: ls, n, 0, hi => by
    intro hbad _
    have hbad' : badLine loads l := hbad
    obtain ⟨hne, hnobj⟩ := hbad'
    rw [ndjsonGo]
    simp only [if_neg hne]
    show _ = Except.error (lineErrMsg loads (n + 0) l)
    rw [lineErrMsg]
    cases hload : loads (pyStrip l) with
    | ok v =>
      cases v with
      | obj o => exact absurd hload (hnobj o)
      | null => rfl
      | bool b => rfl
      | num m => rfl
      | str s => rfl
      | arr a => rfl
    | error e => rfl
  | l :: ls, n, i + 1, hi => by
    intro hbad hgood
    have hi' : i < ls.length := by simpa using hi
    have ihbad : badLine loads (ls.get ⟨i, hi'⟩) := hbad
    have ihgood : ∀ j (hj : j < ls.length), j < i →
        goodLine loads (ls.get ⟨j, hj⟩) := by
      intro j hj hji
      exact hgood (j + 1) (by simpa using hj) (Nat.succ_lt_succ hji)
    have ih := ndjsonGo_error loads ls (n + 1) i hi' ihbad ihgood
    rw [ndjsonGo]
    by_cases hb : pyStrip l = ""
    · simp only [if_pos hb]
      rw [ih, show n + 1 + i = n + (i + 1) from by omega]
      rfl
    · simp only [if_neg hb]
      have hgood0 : goodLine loads l := hgood 0 (by simp) (Nat.succ_pos i)
      rcases hgood0 with hb0 | ⟨o, ho⟩
      · exact absurd hb0 hb
      · rw [ho, ih, show n + 1 + i = n + (i + 1) from by omega]
        rfl

/-- Claim C4 (amended): when whole-document decoding fails, the NDJSON
fallback aborts the conversion at the first offending line with
"Line N: Expected JSON object" or "Line N: Invalid JSON - reason" —
but N is the 1-based position of that line within the *stripped* input
(`_parse_json` strips the text before splitting), which equals its
position in the raw input only when no leading blank lines were removed;
see the counterexample. No output is produced. -/
theorem claim_C4_amended (loads : String → Except String Json) (cfg : Config)
    (input : String) (i : Nat) (hne : pyStrip input ≠ "")
    (hfail : ∃ e, loads (pyStrip input) = .error e)
    (hi : i < (pySplitNl (pyStrip input)).length)
    (hbad : badLine loads ((pySplitNl (pyStrip input)).get ⟨i, hi⟩))
    (hgood : ∀ j (hj : j < (pySplitNl (pyStrip input)).length), j < i →
      goodLine loads ((pySplitNl (pyStrip input)).get ⟨j, hj⟩)) :
    convert loads cfg input =
      .error (lineErrMsg loads (1 + i) ((pySplitNl (pyStrip input)).get ⟨i, hi⟩)) := by
  obtain ⟨e, he⟩ := hfail
  have hp : parse_json loads input = parse_ndjson loads (pyStrip input) := by
    rw [parse_json]
    simp only [if_neg hne, he]
  rw [convert, hp, parse_ndjson, pyStrip_idem,
    ndjsonGo_error loads _ 1 i hi hbad hgood]

theorem claim_C4_amended_witness :
    pyStrip "\x7b\"a\": 1\x7d\nnot json" ≠ ""
    ∧ convert miniLoads {} "\x7b\"a\": 1\x7d\nnot json" =
        .error "Line 2: Invalid JSON - Expecting value" := by
  refine ⟨by decide, ?_⟩
  exact claim_C4_amended miniLoads {} "\x7b\"a\": 1\x7d\nnot json" 1 (by decide)
    ⟨"Extra data", rfl⟩ (by decide)
    ⟨by decide, fun o h => Except.noConfusion
      ((rfl : Except.error "Expecting value" =
        miniLoads (pyStrip "not json")).trans h)⟩
    (fun j hj hj1 => by
      cases j with
      | zero => exact Or.inr ⟨[("a", Json.num 1)], rfl⟩
      | succ j => omega)

/-- Claim C4 counterexample: for the input "\n\n[" the only non-blank line
is line 3 of the raw input, yet the raised error says "Line 1": the text
is stripped before NDJSON splitting, so the reported number counts lines
of the stripped text, not of the input. -/
theorem claim_C4_cex :
    convert miniLoads {} "\n\n[" =
      .error "Line 1: Invalid JSON - Too deeply nested"
    ∧ pySplitNl "\n\n[" = ["", "", "["]
    ∧ (∀ msg, convert miniLoads {} "\n\n[" ≠ .error ("Line 3: " ++ msg)) := by
  refine ⟨rfl, rfl, ?_⟩
  intro msg h
  rw [show convert miniLoads {} "\n\n[" =
      .error "Line 1: Invalid JSON - Too deeply nested" from rfl] at h
  have hs : ("Line 1: Invalid JSON - Too deeply nested" : String) =
      "Line 3: " ++ msg := by injection h
  have h5 : ("Line 1: Invalid JSON - Too deeply nested".toList)[5]? =
      (("Line 3: " ++ msg).toList)[5]? := by rw [hs]
  rw [show ("Line 3: " ++ msg).toList = "Line 3: ".toList ++ msg.toList from by simp,
    List.getElem?_append_left (by decide)] at h5
  exact absurd h5 (by decide)

/-- The quote-doubled text of a field, as written between the quotes of a
quoted CSV field. -/
def quoteDoubled : List Char → String
  | [] => ""
  | c :: cs => (if c = '"' then "\"\"" else String.singleton c) ++ quoteDoubled cs

theorem csvScan_quoted (delim : Char) :
    ∀ cs : List Char, (csvScan delim cs).2 = cs.any (csvSpecial delim)
  | [] => rfl
  | c :: cs => by
    simp only [csvScan, List.any_cons, csvScan_quoted delim cs]

theorem csvScan_text (delim : Char) :
    ∀ cs : List Char, (csvScan delim cs).1 = quoteDoubled cs
  | [] => rfl
  | c :: cs => by
    simp only [csvScan, quoteDoubled, csvScan_text delim cs]

theorem renderField_quoted {delim : Char} {s : String}
    (h : s.toList.any (csvSpecial delim) = true) :
    renderField delim s = "\"" ++ quoteDoubled s.toList ++ "\"" := by
  rw [renderField]
  simp only [csvScan_quoted, csvScan_text, h, if_true]

theorem renderField_unquoted {delim : Char} {s : String}
    (h : s.toList.any (csvSpecial delim) = false) :
    renderField delim s = s := by
  rw [renderField]
  simp only [csvScan_quoted, h, Bool.false_eq_true, if_false]

theorem joinCells_ne_empty (d : Char) (x y : String) (t : List String) :
    joinCells d (x :: y :: t) ≠ "" := by
  intro h
  have he : joinCells d (x :: y :: t) =
      x ++ String.singleton d ++ joinCells d (y :: t) := rfl
  rw [he] at h
  have hl := congrArg String.length h
  rw [String.length_append, String.length_append,
    show (String.singleton d).length = 1 from rfl,
    show ("" : String).length = 0 from rfl] at hl
  omega

/-- Claim C9 (amended): a cell is quoted iff it contains the delimiter, a
double-quote character, or a newline (LF) — a bare carriage return does
not force quoting, since quoting looks only at the configured line
terminator '\n' — and embedded double quotes are doubled; every row is
terminated by a single '\n'. Exception to the iff: a row whose whole
record text would be empty (a single column whose cell renders empty) is
written as the quoted empty field `""` instead of an empty line. -/
theorem claim_C9_amended (delim : Char) (s : String) (cells : List String) :
    (s.toList.any (csvSpecial delim) = true →
      renderField delim s = "\"" ++ quoteDoubled s.toList ++ "\"")
    ∧ (s.toList.any (csvSpecial delim) = false → renderField delim s = s)
    ∧ (renderRow delim cells =
        joinCells delim (cells.map (renderField delim)) ++ "\n"
      ∨ (cells.map (renderField delim) = [""] ∧ renderRow delim cells = "\"\"\n"))
    ∧ (∃ t, renderRow delim cells = t ++ "\n") := by
  refine ⟨fun h => renderField_quoted h, fun h => renderField_unquoted h, ?_, ?_⟩
  · rw [renderRow]
    match cells with
    | [] => exact Or.inl rfl
    | [c] =>
      by_cases hc : renderField delim c = ""
      · refine Or.inr ⟨by rw [List.map_singleton, hc], ?_⟩
        rw [if_pos (by simp [joinCells, hc])]
      · exact Or.inl (by rw [if_neg (by simp [joinCells, hc])])
    | a :: b :: t =>
      have hne : joinCells delim (renderField delim a :: renderField delim b ::
          List.map (renderField delim) t) ≠ "" :=
        joinCells_ne_empty delim _ _ _
      exact Or.inl (by rw [if_neg (by simp [hne])])
  · rw [renderRow]
    by_cases hc : (!cells.isEmpty && decide
        (joinCells delim (cells.map (renderField delim)) = "")) = true
    · exact ⟨"\"\"", by rw [if_pos hc]; rfl⟩
    · exact ⟨joinCells delim (cells.map (renderField delim)), by rw [if_neg hc]⟩

theorem claim_C9_amended_witness :
    renderField ',' "a,b" = "\"a,b\""
    ∧ renderField ',' "ab" = "ab"
    ∧ renderRow ',' ["ab"] = "ab\n" := by
  refine ⟨(claim_C9_amended ',' "a,b" []).1 (by decide),
    (claim_C9_amended ',' "ab" []).2.1 (by decide), ?_⟩
  rcases (claim_C9_amended ',' "ab" ["ab"]).2.2.1 with h | ⟨hm, _⟩
  · exact h
  · exact absurd hm (by decide)

/-- Claim C9 counterexample: the empty cell of `{"a": ""}` contains neither
delimiter, quote, nor line break, yet is emitted quoted (`""`); and the
cell `x\ry` of `{"a": "x\ry"}` contains a line break (CR) yet is emitted
unquoted. The quoted-iff-special characterisation of the claim fails in
both directions. -/
theorem claim_C9_cex :
    convert miniLoads {} "\x7b\"a\": \"\"\x7d" = .ok "a\n\"\"\n"
    ∧ ("" : String).toList.any (csvSpecial ',') = false
    ∧ ("a\n\"\"\n" : String) ≠ "a\n\n"
    ∧ convert miniLoads {} "\x7b\"a\": \"x\\ry\"\x7d" = .ok "a\nx\ry\n"
    ∧ ("x\ry" : String).toList.any
        (fun c => c = ',' || c = '"' || c = '\n' || c = '\x0d') = true
    ∧ ("a\nx\ry\n" : String) ≠ "a\n\"x\ry\"\n" :=
  ⟨rfl, rfl, by decide, rfl, rfl, by decide⟩
